import Mathlib

/-!
Verification of the TabSwitcher window-switcher engine.

The Go source is shallowly embedded: every OS query a function issues is a
field of an explicit environment record, so each source function becomes a
pure Lean function of (environment, arguments).  Window handles (HWND) are
modelled as naturals; a query that can fail returns an Option.
-/

namespace TabSwitcher

/-! ## Win32 constants (src/win32/win32.go) -/

def DWM_CLOAKED_APP : Nat := 0x00000001
def DWM_CLOAKED_SHELL : Nat := 0x00000002
def DWM_CLOAKED_INHERITED : Nat := 0x00000004
def WS_EX_TOOLWINDOW : Nat := 0x00000080
def MaxLastActivePopupIterations : Nat := 50

abbrev HWND := Nat

/-- Responses of the OS queries consulted during eligibility classification.
`className` and `dwmCloaked` return `none` when the underlying call reports
failure (`GetClassNameW` error / zero length, `DwmGetWindowAttribute` error);
the remaining queries return a bare value with no failure channel, exactly as
in the Go wrappers. -/
structure Win32Env where
  isWindowVisible : HWND → Bool
  rootOwner : HWND → HWND
  lastActivePopup : HWND → HWND
  className : HWND → Option String
  dwmCloaked : HWND → Option Nat
  exStyle : HWND → Nat

/-- The loop body of `GetLastVisibleActivePopUpOfWindow`, with the remaining
iteration budget (`level` in the source) as explicit fuel. -/
def glvapLoop (env : Win32Env) : Nat → HWND → HWND
  | 0, _ => 0
  | level + 1, currentWindow =>
    let lastPopUp := env.lastActivePopup currentWindow
    if env.isWindowVisible lastPopUp then lastPopUp
    else if lastPopUp == currentWindow then 0
    else glvapLoop env level lastPopUp

/-- `GetLastVisibleActivePopUpOfWindow` (src/win32/win32.go lines 346-366). -/
def GetLastVisibleActivePopUpOfWindow (env : Win32Env) (hwnd : HWND) : HWND :=
  glvapLoop env MaxLastActivePopupIterations hwnd

/-- Number of loop iterations (each issuing one `GetLastActivePopup` query)
performed by `glvapLoop` before it returns. -/
def glvapIterations (env : Win32Env) : Nat → HWND → Nat
  | 0, _ => 0
  | level + 1, currentWindow =>
    let lastPopUp := env.lastActivePopup currentWindow
    if env.isWindowVisible lastPopUp then 1
    else if lastPopUp == currentWindow then 1
    else 1 + glvapIterations env level lastPopUp

def WindowsClassNamesToSkip : List String :=
  ["Shell_TrayWnd", "DV2ControlHost", "MsgrIMEWindowClass", "SysShadow", "Button"]

/-- `EligibleForActivation` (src/win32/win32.go lines 370-400).  The class-name
query failing (or returning length 0) yields `false`; the two string checks
mirror `slices.Contains` and the byte-slice comparison `classNameStr[:18]`. -/
def EligibleForActivation (env : Win32Env) (hwnd shellWindow : HWND) : Bool :=
  if hwnd == shellWindow then false
  else
    let root := env.rootOwner hwnd
    if GetLastVisibleActivePopUpOfWindow env root != hwnd then false
    else
      match env.className hwnd with
      | none => false
      | some classNameStr =>
        if WindowsClassNamesToSkip.contains classNameStr then false
        else if decide (18 ≤ classNameStr.length) &&
            (classNameStr.take 18 == "WMP9MediaBarFlyout") then false
        else true

/-- `IsAltTabWindow` (src/win32/win32.go lines 404-429).  Note the cloaking
test fires only when the DWM query succeeded (`err == nil`) and returned
exactly `DWM_CLOAKED_SHELL`. -/
def IsAltTabWindow (env : Win32Env) (hwnd : HWND) : Bool :=
  if !env.isWindowVisible hwnd then false
  else if env.rootOwner hwnd != hwnd then false
  else if (match env.dwmCloaked hwnd with
           | some cloaked => cloaked == DWM_CLOAKED_SHELL
           | none => false) then false
  else if (env.exStyle hwnd) &&& WS_EX_TOOLWINDOW != 0 then false
  else true

/-- The spec's wording of the classifier (spec section 4.1): eligible iff
visible, its own root-owner, not cloaked by the shell (the shell-cloak flag is
absent from a successfully read cloak attribute; app/inherited cloaking is
tolerated), and no tool-window style bit. -/
def SpecIsEligible (env : Win32Env) (hwnd : HWND) : Prop :=
  env.isWindowVisible hwnd = true ∧
  env.rootOwner hwnd = hwnd ∧
  (∀ c, env.dwmCloaked hwnd = some c → c &&& DWM_CLOAKED_SHELL = 0) ∧
  (env.exStyle hwnd) &&& WS_EX_TOOLWINDOW = 0

/-- A window that is visible, its own root owner, free of the tool-window bit,
and whose DWM cloaking query fails. -/
def envDwmFail : Win32Env where
  isWindowVisible := fun _ => true
  rootOwner := fun h => h
  lastActivePopup := fun h => h
  className := fun _ => none
  dwmCloaked := fun _ => none
  exStyle := fun _ => 0

/-- Same window but with a successfully read cloak attribute equal to
`DWM_CLOAKED_SHELL ||| DWM_CLOAKED_APP` (= 3): shell-initiated cloaking is
present, yet the value is not *exactly* the shell flag. -/
def envCloakShellApp : Win32Env where
  isWindowVisible := fun _ => true
  rootOwner := fun h => h
  lastActivePopup := fun h => h
  className := fun _ => none
  dwmCloaked := fun _ => some (DWM_CLOAKED_SHELL ||| DWM_CLOAKED_APP)
  exStyle := fun _ => 0

/-! ## Theorems for C10, C3, C5 -/

theorem glvapLoop_visible_or_zero (env : Win32Env) :
    ∀ (fuel : Nat) (h : HWND),
      glvapLoop env fuel h = 0 ∨ env.isWindowVisible (glvapLoop env fuel h) = true := by
  intro fuel
  induction fuel with
  | zero => intro h; left; rfl
  | succ n ih =>
    intro h
    simp only [glvapLoop]
    by_cases hv : env.isWindowVisible (env.lastActivePopup h) = true
    · right; simp [hv]
    · simp only [Bool.not_eq_true] at hv
      simp only [hv, if_false]
      by_cases he : (env.lastActivePopup h == h) = true
      · left; simp [he]
      · simp only [Bool.not_eq_true] at he
        simp only [he, if_false]
        exact ih (env.lastActivePopup h)

theorem glvapIterations_le (env : Win32Env) :
    ∀ (fuel : Nat) (h : HWND), glvapIterations env fuel h ≤ fuel := by
  intro fuel
  induction fuel with
  | zero => intro h; exact Nat.le_refl 0
  | succ n ih =>
    intro h
    simp only [glvapIterations]
    by_cases hv : env.isWindowVisible (env.lastActivePopup h) = true
    · simp [hv]
    · simp only [Bool.not_eq_true] at hv
      simp only [hv, if_false]
      by_cases he : (env.lastActivePopup h == h) = true
      · simp [he]
      · simp only [Bool.not_eq_true] at he
        simp only [hv, he, Bool.false_eq_true, if_false]
        have := ih (env.lastActivePopup h)
        omega

/-- Claim C10: for every handle and every sequence of responses from the OS
last-active-popup and visibility queries, the popup-chain walk performs at
most `MaxLastActivePopupIterations` (50) iterations and returns either a
handle whose visibility query answered true, or 0 when the chain reaches a
fixed point or exhausts the iteration bound. -/
theorem C10_popup_walk_bounded (env : Win32Env) (hwnd : HWND) :
    (GetLastVisibleActivePopUpOfWindow env hwnd = 0 ∨
      env.isWindowVisible (GetLastVisibleActivePopUpOfWindow env hwnd) = true) ∧
    glvapIterations env MaxLastActivePopupIterations hwnd ≤ MaxLastActivePopupIterations :=
  ⟨glvapLoop_visible_or_zero env MaxLastActivePopupIterations hwnd,
   glvapIterations_le env MaxLastActivePopupIterations hwnd⟩

/-- The statement of claim C3 as written: any OS query failure during
classification makes the classifier answer "not eligible"; in particular a
failing compositor cloaking-attribute query. -/
def C3claimStatement : Prop :=
  ∀ (env : Win32Env) (hwnd : HWND),
    env.dwmCloaked hwnd = none → IsAltTabWindow env hwnd = false

/-- Claim C3 is false on the code: `IsAltTabWindow` skips the cloaking test
when `DwmGetWindowAttribute` fails (`err == nil && ...`), so a window whose
cloaking query fails is still classified eligible. -/
theorem C3_counterexample : ¬ C3claimStatement := by
  intro hcl
  have h := hcl envDwmFail 0 rfl
  simp [IsAltTabWindow, envDwmFail] at h

/-- Claim C3 amended: a class-name query failure during
`EligibleForActivation` yields "not eligible" (fail-closed), but a failure of
the cloaking-attribute query in `IsAltTabWindow` is ignored — the cloaking
check is skipped and the window can still be classified eligible (fail-open),
witnessed by `envDwmFail`. -/
theorem C3_amended :
    (∀ (env : Win32Env) (hwnd shellWindow : HWND),
      env.className hwnd = none → EligibleForActivation env hwnd shellWindow = false) ∧
    (envDwmFail.dwmCloaked 0 = none ∧ IsAltTabWindow envDwmFail 0 = true) := by
  refine ⟨?_, rfl, by simp [IsAltTabWindow, envDwmFail]⟩
  intro env hwnd shellWindow hcn
  simp only [EligibleForActivation, hcn]
  by_cases hs : (hwnd == shellWindow) = true
  · simp [hs]
  · simp only [Bool.not_eq_true] at hs
    simp only [hs, if_false]
    by_cases hp :
        (GetLastVisibleActivePopUpOfWindow env (env.rootOwner hwnd) != hwnd) = true
    · simp [hp]
    · simp only [Bool.not_eq_true] at hp
      simp [hp]

/-- Closed witness for the hypothesis-bearing half of `C3_amended`. -/
theorem C3_amended_witness :
    envDwmFail.className 5 = none ∧ EligibleForActivation envDwmFail 5 0 = false :=
  ⟨rfl, C3_amended.1 envDwmFail 5 0 rfl⟩

/-- The statement of claim C5 as written: eligible iff visible, own
root-owner, not cloaked by the shell (app/inherited cloaking tolerated), and
no tool-window bit. -/
def C5claimStatement : Prop :=
  ∀ (env : Win32Env) (hwnd : HWND),
    IsAltTabWindow env hwnd = true ↔ SpecIsEligible env hwnd

/-- Claim C5 is false on the code: a cloak attribute of
`DWM_CLOAKED_SHELL ||| DWM_CLOAKED_APP` (= 3) carries the shell-cloak flag,
so the spec's condition fails, yet `IsAltTabWindow` tolerates every value
other than exactly `DWM_CLOAKED_SHELL` and classifies the window eligible. -/
theorem C5_counterexample : ¬ C5claimStatement := by
  intro hcl
  have h := (hcl envCloakShellApp 0).mp (by decide)
  have h3 := h.2.2.1 (DWM_CLOAKED_SHELL ||| DWM_CLOAKED_APP) rfl
  exact absurd h3 (by decide)

/-- Claim C5 amended: eligible iff the window is visible, is its own
root-owner, the cloak attribute was *not* successfully read as exactly the
shell-cloak flag (any other value — including combinations that contain the
shell bit — and a failed query are tolerated), and the tool-window extended
style bit is clear. -/
theorem C5_amended (env : Win32Env) (hwnd : HWND) :
    IsAltTabWindow env hwnd = true ↔
      env.isWindowVisible hwnd = true ∧
      env.rootOwner hwnd = hwnd ∧
      env.dwmCloaked hwnd ≠ some DWM_CLOAKED_SHELL ∧
      (env.exStyle hwnd) &&& WS_EX_TOOLWINDOW = 0 := by
  simp only [IsAltTabWindow]
  by_cases hv : env.isWindowVisible hwnd = true
  · simp only [hv, Bool.not_true, if_false, Bool.false_eq_true]
    by_cases hr : env.rootOwner hwnd = hwnd
    · simp only [hr, bne_self_eq_false, if_false, Bool.false_eq_true]
      cases hc : env.dwmCloaked hwnd with
      | none =>
        simp only [reduceCtorEq, ne_eq, not_false_eq_true, true_and, if_false,
          Bool.false_eq_true]
        by_cases hx : (env.exStyle hwnd) &&& WS_EX_TOOLWINDOW = 0
        · simp [hx]
        · have : ((env.exStyle hwnd) &&& WS_EX_TOOLWINDOW != 0) = true := by
            simpa using hx
          simp [this, hx]
      | some c =>
        by_cases hcs : c = DWM_CLOAKED_SHELL
        · subst hcs
          simp
        · have : (c == DWM_CLOAKED_SHELL) = false := by simpa using hcs
          simp only [this, if_false, Bool.false_eq_true]
          have hne : some c ≠ some DWM_CLOAKED_SHELL := by simpa using hcs
          by_cases hx : (env.exStyle hwnd) &&& WS_EX_TOOLWINDOW = 0
          · simp [hx, hne]
          · have hxb : ((env.exStyle hwnd) &&& WS_EX_TOOLWINDOW != 0) = true := by
              simpa using hx
            simp [hxb, hx]
    · have : (env.rootOwner hwnd != hwnd) = true := by simpa using hr
      simp [this, hr]
  · simp only [Bool.not_eq_true] at hv
    simp [hv]

/-! ## IconResolver (src/unnamed/part_003, `GetWindowIcon`) -/

def ICON_SMALL : Nat := 0
def ICON_BIG : Nat := 1
def ICON_SMALL2 : Nat := 2

/-- Responses of the native icon queries issued by `GetWindowIcon` for one
window.  A returned handle of 0 is the failure convention of every query
(`SendMessage WM_GETICON`, `GetClassLongPtrW`, `ExtractIconExW`,
`LoadIconW`), exactly as in the Go wrappers. -/
structure IconEnv where
  wmGetIcon : Nat → Nat
  classIconLarge : Nat
  classIconSmall : Nat
  utf16Ok : Bool
  extractNumIcons : Nat
  extractLargeIcon : Nat
  stockIcon : Nat

structure IconInfo where
  icon : Nat
  source : String
deriving DecidableEq, Repr

/-- `GetWindowIcon` (src/unnamed/part_003 lines 711-789): the seven-tier
fallback cascade, returning the first non-zero icon handle, with the generic
application stock icon as unconditional last resort. -/
def GetWindowIcon (env : IconEnv) (exePath : String) : IconInfo :=
  let icon := env.wmGetIcon ICON_BIG
  if icon != 0 then { icon := icon, source := "WM_GETICON" }
  else
    let icon := env.wmGetIcon ICON_SMALL
    if icon != 0 then { icon := icon, source := "WM_GETICON_S" }
    else
      let icon := env.wmGetIcon ICON_SMALL2
      if icon != 0 then { icon := icon, source := "WM_GETICON_S2" }
      else
        if env.classIconLarge != 0 then
          { icon := env.classIconLarge, source := "GCLP_HICON" }
        else if env.classIconSmall != 0 then
          { icon := env.classIconSmall, source := "GCLP_HICONSM" }
        else if exePath != "" && env.utf16Ok &&
            decide (0 < env.extractNumIcons) && env.extractLargeIcon != 0 then
          { icon := env.extractLargeIcon, source := "ExtractIconEx" }
        else
          { icon := env.stockIcon, source := "IDI_APPLICATION" }

/-- The spec's view of the cascade (spec sections 4.2 and 9): a declarative
ordered list of strategies, each succeeding or failing independently, with
the stock-icon fallback as the always-successful seventh entry. -/
def iconStrategies (env : IconEnv) (exePath : String) : List (Option IconInfo) :=
  [ if env.wmGetIcon ICON_BIG != 0 then
      some { icon := env.wmGetIcon ICON_BIG, source := "WM_GETICON" } else none,
    if env.wmGetIcon ICON_SMALL != 0 then
      some { icon := env.wmGetIcon ICON_SMALL, source := "WM_GETICON_S" } else none,
    if env.wmGetIcon ICON_SMALL2 != 0 then
      some { icon := env.wmGetIcon ICON_SMALL2, source := "WM_GETICON_S2" } else none,
    if env.classIconLarge != 0 then
      some { icon := env.classIconLarge, source := "GCLP_HICON" } else none,
    if env.classIconSmall != 0 then
      some { icon := env.classIconSmall, source := "GCLP_HICONSM" } else none,
    if exePath != "" && env.utf16Ok &&
        decide (0 < env.extractNumIcons) && env.extractLargeIcon != 0 then
      some { icon := env.extractLargeIcon, source := "ExtractIconEx" } else none,
    some { icon := env.stockIcon, source := "IDI_APPLICATION" } ]

/-- First successful strategy of an ordered cascade (the fold of spec
section 9 that stops at the first success). -/
def firstSuccess : List (Option IconInfo) → Option IconInfo
  | [] => none
  | some x :: _ => some x
  | none :: rest => firstSuccess rest

/-- Claim C6: icon resolution attempts the seven strategies in strict order
(large WM_GETICON, small WM_GETICON, second small slot, class large icon,
class small icon, executable extraction when a path is available, generic
application stock icon), returns the first success, never skips an earlier
strategy, and always returns some icon without propagating an error: the
code's nested conditionals compute exactly the first success of the ordered
strategy list, whose last entry always succeeds. -/
theorem C6_icon_cascade_first_success (env : IconEnv) (exePath : String) :
    some (GetWindowIcon env exePath) = firstSuccess (iconStrategies env exePath) := by
  simp only [GetWindowIcon, iconStrategies]
  by_cases h1 : (env.wmGetIcon ICON_BIG != 0) = true
  · simp [h1, firstSuccess]
  · simp only [Bool.not_eq_true] at h1
    by_cases h2 : (env.wmGetIcon ICON_SMALL != 0) = true
    · simp [h1, h2, firstSuccess]
    · simp only [Bool.not_eq_true] at h2
      by_cases h3 : (env.wmGetIcon ICON_SMALL2 != 0) = true
      · simp [h1, h2, h3, firstSuccess]
      · simp only [Bool.not_eq_true] at h3
        by_cases h4 : (env.classIconLarge != 0) = true
        · simp [h1, h2, h3, h4, firstSuccess]
        · simp only [Bool.not_eq_true] at h4
          by_cases h5 : (env.classIconSmall != 0) = true
          · simp [h1, h2, h3, h4, h5, firstSuccess]
          · simp only [Bool.not_eq_true] at h5
            by_cases h6 : (exePath != "" && env.utf16Ok &&
                decide (0 < env.extractNumIcons) && env.extractLargeIcon != 0) = true
            · simp [h1, h2, h3, h4, h5, h6, firstSuccess]
            · simp only [Bool.not_eq_true] at h6
              simp [h1, h2, h3, h4, h5, h6, firstSuccess]

/-! ## WindowRegistry and refresh pass (src/unnamed/part_002, current variant,
`UserWindow` / `GetAltTabWindows` / the `activateWindow` handler).

The `sync.Map` is determinized as an association list with unique keys whose
order is the iteration order of `Range`; `Store` of an existing key replaces
the value in place, `Store` of a fresh key appends. -/

structure UserWindow where
  touched : Bool
  isForeground : Bool
  lastActive : Int
  hwnd : HWND
  caption : String
  iconBase64 : String
  iconSource : String
  exePath : String
deriving DecidableEq, Repr

abbrev Registry := List (HWND × UserWindow)

/-- The OS responses consumed by one refresh pass: the foreground handle
captured at the start, the enumeration stream (`none` models an item whose
`Error` field is set), and the per-window query responses. `captionOk` is
`GetWindowTextW` succeeding; `exePath` is the process-image lookup with ""
on failure; `hiconToPng` is `HICONToBase64Png`, `none` on failure. -/
structure PassEnv where
  foreground : HWND
  enumeration : List (Option HWND)
  win32 : Win32Env
  captionOk : HWND → Bool
  caption : HWND → String
  exePath : HWND → String
  iconEnv : HWND → IconEnv
  hiconToPng : Nat → Option String

/-- `sync.Map.Store` on a key already present: replace the value in place. -/
def storeExisting (reg : Registry) (h : HWND) (w : UserWindow) : Registry :=
  reg.map fun kv => if kv.1 == h then (kv.1, w) else kv

/-- The opening `Range` of `GetAltTabWindows`: reset `touched` on every
record. -/
def resetTouched (reg : Registry) : Registry :=
  reg.map fun kv => (kv.1, { kv.2 with touched := false })

/-- The body of the enumeration loop for one successfully enumerated handle:
classify, query the caption, resolve the icon, convert it to PNG, and upsert
on success; leave the registry untouched when the classifier says no or the
caption/PNG step fails. -/
def processWindow (env : PassEnv) (reg : Registry) (hWnd : HWND) : Registry :=
  if IsAltTabWindow env.win32 hWnd then
    if env.captionOk hWnd then
      let capStr := env.caption hWnd
      let exePath := env.exePath hWnd
      let iconInfo := GetWindowIcon (env.iconEnv hWnd) exePath
      match env.hiconToPng iconInfo.icon with
      | none => reg
      | some iconB64 =>
        let isForeground := env.foreground == hWnd
        match reg.lookup hWnd with
        | some window =>
          storeExisting reg hWnd
            { window with
              touched := true, caption := capStr,
              iconBase64 := "data:image/png;base64," ++ iconB64,
              iconSource := iconInfo.source, isForeground := isForeground,
              exePath := exePath }
        | none =>
          reg ++ [(hWnd,
            { touched := true, isForeground := isForeground, lastActive := 0,
              hwnd := hWnd, caption := capStr,
              iconBase64 := "data:image/png;base64," ++ iconB64,
              iconSource := iconInfo.source, exePath := exePath })]
    else reg
  else reg

/-- One step of the `for res := range win32.ListDesktopWindows()` loop:
an item with a set `Error` is logged and skipped. -/
def enumStep (env : PassEnv) (reg : Registry) (res : Option HWND) : Registry :=
  match res with
  | none => reg
  | some hWnd => processWindow env reg hWnd

def sweepEnum (env : PassEnv) (reg : Registry) : Registry :=
  env.enumeration.foldl (enumStep env) reg

/-- `GetAltTabWindows` (src/unnamed/part_002 lines 54-138): reset `touched`,
feed the enumeration through the classifier and icon pipeline, then collect
the touched records (the snapshot) and delete the rest. -/
def GetAltTabWindows (env : PassEnv) (reg : Registry) : Registry × List UserWindow :=
  let reg1 := resetTouched reg
  let reg2 := sweepEnum env reg1
  let final := reg2.filter fun kv => kv.2.touched
  (final, final.map fun kv => kv.2)

/-- The store condition of the enumeration loop: classified eligible and both
fallible per-window steps (caption query, icon-to-PNG conversion) succeed. -/
def storedCond (env : PassEnv) (h : HWND) : Bool :=
  IsAltTabWindow env.win32 h && env.captionOk h &&
    (env.hiconToPng (GetWindowIcon (env.iconEnv h) (env.exePath h)).icon).isSome

/-- Well-formedness the live registry always has: keys are unique and every
record's `Hwnd` field equals its key. -/
def WFreg (reg : Registry) : Prop :=
  (reg.map Prod.fst).Nodup ∧ ∀ kv ∈ reg, kv.2.hwnd = kv.1

/-- The `touched` flag of the record stored under `k`, `false` when absent. -/
def touchedOf (reg : Registry) (k : HWND) : Bool :=
  match reg.lookup k with
  | some w => w.touched
  | none => false

/-- `activateWindow` event handler (src/unnamed/part_002 lines 187-204):
`success` is the result of `SetForegroundWindow`.  The second component
collects the snapshots passed to `Emit("userWindowsChanged", ...)`. -/
def activateWindowHandler (env : PassEnv) (success : Bool) (now : Int)
    (hwnd : HWND) (reg : Registry) : Registry × List (List UserWindow) :=
  if !success then (reg, [])
  else
    match reg.lookup hwnd with
    | some window =>
      let reg2 := storeExisting reg hwnd { window with lastActive := now }
      let res := GetAltTabWindows env reg2
      (res.1, [res.2])
    | none => (reg, [])

/-! ## Association-list lemmas for the registry -/

theorem lookup_map_entry (f : HWND → UserWindow → UserWindow) :
    ∀ (reg : Registry) (k : HWND),
      (reg.map fun kv => (kv.1, f kv.1 kv.2)).lookup k = (reg.lookup k).map (f k) := by
  intro reg k
  induction reg with
  | nil => rfl
  | cons kv rest ih =>
    obtain ⟨a, b⟩ := kv
    simp only [List.map_cons, List.lookup_cons]
    by_cases hka : k = a
    · subst hka
      simp
    · have hf : (k == a) = false := beq_eq_false_iff_ne.mpr hka
      simp [hf, ih]

theorem lookup_resetTouched (reg : Registry) (k : HWND) :
    (resetTouched reg).lookup k = (reg.lookup k).map fun w => { w with touched := false } :=
  lookup_map_entry (fun _ w => { w with touched := false }) reg k

theorem lookup_storeExisting (reg : Registry) (h : HWND) (w : UserWindow) (k : HWND) :
    (storeExisting reg h w).lookup k =
      if k = h then (reg.lookup h).map (fun _ => w) else reg.lookup k := by
  induction reg with
  | nil => simp [storeExisting]
  | cons kv rest ih =>
    obtain ⟨a, b⟩ := kv
    simp only [storeExisting, List.map_cons] at ih ⊢
    by_cases hah : a = h
    · subst hah
      have ht : (a == a) = true := beq_self_eq_true a
      simp only [ht, if_true, List.lookup_cons]
      by_cases hka : k = a
      · subst hka
        simp
      · have hf : (k == a) = false := beq_eq_false_iff_ne.mpr hka
        simp only [hf, Bool.false_eq_true, if_false, hka]
        simpa [hka] using ih
    · have hahf : (a == h) = false := beq_eq_false_iff_ne.mpr hah
      have hhaf : (h == a) = false := beq_eq_false_iff_ne.mpr (fun hh => hah hh.symm)
      simp only [hahf, Bool.false_eq_true, if_false, List.lookup_cons]
      by_cases hka : k = a
      · subst hka
        have ht : (k == k) = true := beq_self_eq_true k
        simp [ht, hah]
      · have hf : (k == a) = false := beq_eq_false_iff_ne.mpr hka
        simp only [hf, hhaf, Bool.false_eq_true, if_false]
        simpa using ih

theorem lookup_append_single (reg : Registry) (h : HWND) (w : UserWindow) (k : HWND) :
    (reg ++ [(h, w)]).lookup k =
      match reg.lookup k with
      | some v => some v
      | none => if k = h then some w else none := by
  induction reg with
  | nil =>
    simp only [List.nil_append, List.lookup_nil, List.lookup_cons]
    by_cases hkh : k = h
    · subst hkh
      simp
    · have hf : (k == h) = false := beq_eq_false_iff_ne.mpr hkh
      simp [hf, hkh]
  | cons kv rest ih =>
    obtain ⟨a, b⟩ := kv
    simp only [List.cons_append, List.lookup_cons]
    by_cases hka : k = a
    · subst hka
      simp
    · have hf : (k == a) = false := beq_eq_false_iff_ne.mpr hka
      simp [hf, ih]

theorem lookup_mem {reg : Registry} {k : HWND} {w : UserWindow}
    (hl : reg.lookup k = some w) : (k, w) ∈ reg := by
  induction reg with
  | nil => simp at hl
  | cons kv rest ih =>
    obtain ⟨a, b⟩ := kv
    rw [List.lookup_cons] at hl
    by_cases hka : k = a
    · subst hka
      simp only [beq_self_eq_true] at hl
      cases hl
      exact List.mem_cons_self _ _
    · have hf : (k == a) = false := beq_eq_false_iff_ne.mpr hka
      simp only [hf] at hl
      exact List.mem_cons_of_mem _ (ih hl)

theorem lookup_eq_none_iff (reg : Registry) (k : HWND) :
    reg.lookup k = none ↔ k ∉ reg.map Prod.fst := by
  induction reg with
  | nil => simp
  | cons kv rest ih =>
    obtain ⟨a, b⟩ := kv
    rw [List.lookup_cons]
    by_cases hka : k = a
    · subst hka
      simp
    · have hf : (k == a) = false := beq_eq_false_iff_ne.mpr hka
      simp [hf, ih, hka]

theorem mem_iff_lookup_of_nodup :
    ∀ (reg : Registry), (reg.map Prod.fst).Nodup →
      ∀ (k : HWND) (w : UserWindow), (k, w) ∈ reg ↔ reg.lookup k = some w := by
  intro reg
  induction reg with
  | nil => intro _ k w; simp
  | cons kv rest ih =>
    intro hnd k w
    obtain ⟨a, b⟩ := kv
    simp only [List.map_cons, List.nodup_cons] at hnd
    rw [List.lookup_cons]
    by_cases hka : k = a
    · subst hka
      simp only [beq_self_eq_true]
      constructor
      · intro hm
        rcases List.mem_cons.mp hm with heq | htail
        · cases heq
          rfl
        · exact absurd (List.mem_map_of_mem Prod.fst htail) hnd.1
      · intro hl
        cases hl
        exact List.mem_cons_self _ _
    · have hf : (k == a) = false := beq_eq_false_iff_ne.mpr hka
      simp only [hf]
      rw [← ih hnd.2 k w]
      constructor
      · intro hm
        rcases List.mem_cons.mp hm with heq | htail
        · exact absurd (congrArg Prod.fst heq) hka
        · exact htail
      · exact List.mem_cons_of_mem _

/-! ## Sweep lemmas -/

theorem touchedOf_resetTouched (reg : Registry) (k : HWND) :
    touchedOf (resetTouched reg) k = false := by
  unfold touchedOf
  rw [lookup_resetTouched]
  cases reg.lookup k <;> rfl

theorem touchedOf_processWindow (env : PassEnv) (reg : Registry) (h k : HWND) :
    touchedOf (processWindow env reg h) k =
      if k = h ∧ storedCond env h = true then true else touchedOf reg k := by
  by_cases h1 : IsAltTabWindow env.win32 h = true
  · by_cases h2 : env.captionOk h = true
    · cases hpng : env.hiconToPng (GetWindowIcon (env.iconEnv h) (env.exePath h)).icon with
      | none =>
        have hsc : storedCond env h = false := by
          simp [storedCond, h1, h2, hpng]
        simp only [processWindow, h1, h2, if_true, hpng]
        simp [hsc]
      | some png =>
        have hsc : storedCond env h = true := by
          simp [storedCond, h1, h2, hpng]
        simp only [processWindow, h1, h2, if_true, hpng]
        cases hl : reg.lookup h with
        | some window =>
          by_cases hkh : k = h
          · subst hkh
            simp [touchedOf, lookup_storeExisting, hl, hsc]
          · simp [touchedOf, lookup_storeExisting, hl, hkh]
        | none =>
          by_cases hkh : k = h
          · subst hkh
            simp [touchedOf, lookup_append_single, hl, hsc]
          · simp only [touchedOf, lookup_append_single, hkh, false_and, if_false]
            cases hlk : reg.lookup k <;> simp [hkh, hlk]
    · have h2' : env.captionOk h = false := by simpa using h2
      have hsc : storedCond env h = false := by simp [storedCond, h2']
      simp [processWindow, h1, h2', hsc]
  · have h1' : IsAltTabWindow env.win32 h = false := by simpa using h1
    have hsc : storedCond env h = false := by simp [storedCond, h1']
    simp [processWindow, h1', hsc]

theorem touchedOf_foldl (env : PassEnv) :
    ∀ (items : List (Option HWND)) (reg : Registry) (k : HWND),
      touchedOf (items.foldl (enumStep env) reg) k = true ↔
        touchedOf reg k = true ∨ (some k ∈ items ∧ storedCond env k = true) := by
  intro items
  induction items with
  | nil => intro reg k; simp
  | cons item rest ih =>
    intro reg k
    simp only [List.foldl_cons]
    rw [ih]
    cases item with
    | none => simp [enumStep]
    | some h =>
      simp only [enumStep]
      rw [touchedOf_processWindow]
      by_cases hkh : k = h
      · subst hkh
        by_cases hsc : storedCond env k = true
        · simp [hsc]
        · simp [hsc]
      · simp [hkh, Ne.symm hkh]

theorem keys_resetTouched (reg : Registry) :
    (resetTouched reg).map Prod.fst = reg.map Prod.fst := by
  induction reg with
  | nil => rfl
  | cons kv rest ih => simp [resetTouched]

theorem keys_storeExisting (reg : Registry) (h : HWND) (w : UserWindow) :
    (storeExisting reg h w).map Prod.fst = reg.map Prod.fst := by
  induction reg with
  | nil => rfl
  | cons kv rest ih =>
    obtain ⟨a, b⟩ := kv
    simp only [storeExisting, List.map_cons] at ih ⊢
    rw [ih]
    by_cases hah : (a == h) = true
    · simp [hah]
    · have hah' : (a == h) = false := by simpa using hah
      simp [hah']

theorem WFreg_resetTouched (reg : Registry) (hwf : WFreg reg) :
    WFreg (resetTouched reg) := by
  constructor
  · rw [keys_resetTouched]
    exact hwf.1
  · intro kv hm
    rcases List.mem_map.mp hm with ⟨kv0, hkv0, heq⟩
    cases heq
    exact hwf.2 kv0 hkv0

theorem WFreg_processWindow (env : PassEnv) (reg : Registry) (h : HWND)
    (hwf : WFreg reg) : WFreg (processWindow env reg h) := by
  by_cases h1 : IsAltTabWindow env.win32 h = true
  · by_cases h2 : env.captionOk h = true
    · cases hpng : env.hiconToPng (GetWindowIcon (env.iconEnv h) (env.exePath h)).icon with
      | none => simpa only [processWindow, h1, h2, if_true, hpng] using hwf
      | some png =>
        simp only [processWindow, h1, h2, if_true, hpng]
        cases hl : reg.lookup h with
        | some window =>
          constructor
          · rw [keys_storeExisting]
            exact hwf.1
          · intro kv hm
            rcases List.mem_map.mp hm with ⟨kv0, hkv0, heq⟩
            by_cases hb : (kv0.1 == h) = true
            · have hk : kv0.1 = h := eq_of_beq hb
              rw [hb] at heq
              simp only [if_true] at heq
              cases heq
              have hwmem : (h, window) ∈ reg := lookup_mem hl
              have : window.hwnd = h := hwf.2 (h, window) hwmem
              simpa [hk] using this
            · have hb' : (kv0.1 == h) = false := by simpa using hb
              rw [hb'] at heq
              simp only [Bool.false_eq_true, if_false] at heq
              subst heq
              exact hwf.2 kv0 hkv0
        | none =>
          have hnotin : h ∉ reg.map Prod.fst := (lookup_eq_none_iff reg h).mp hl
          constructor
          · rw [List.map_append]
            simp only [List.map_cons, List.map_nil]
            rw [List.nodup_append]
            refine ⟨hwf.1, List.nodup_singleton h, ?_⟩
            intro x hx hx'
            simp only [List.mem_singleton] at hx'
            subst hx'
            exact hnotin hx
          · intro kv hm
            rcases List.mem_append.mp hm with hin | hnew
            · exact hwf.2 kv hin
            · simp only [List.mem_singleton] at hnew
              subst hnew
              rfl
    · have h2' : env.captionOk h = false := by simpa using h2
      simpa only [processWindow, h1, h2', Bool.false_eq_true, if_true, if_false] using hwf
  · have h1' : IsAltTabWindow env.win32 h = false := by simpa using h1
    simpa only [processWindow, h1', Bool.false_eq_true, if_false] using hwf

theorem WFreg_foldl (env : PassEnv) :
    ∀ (items : List (Option HWND)) (reg : Registry), WFreg reg →
      WFreg (items.foldl (enumStep env) reg) := by
  intro items
  induction items with
  | nil => intro reg hwf; exact hwf
  | cons item rest ih =>
    intro reg hwf
    simp only [List.foldl_cons]
    apply ih
    cases item with
    | none => exact hwf
    | some h => exact WFreg_processWindow env reg h hwf

/-- Every record that is `touched` carries the foreground flag computed from
the pass's captured foreground handle and its own key. -/
def fgOK (env : PassEnv) (reg : Registry) : Prop :=
  ∀ kv ∈ reg, kv.2.touched = true → kv.2.isForeground = (env.foreground == kv.1)

theorem fgOK_resetTouched (env : PassEnv) (reg : Registry) :
    fgOK env (resetTouched reg) := by
  intro kv hm ht
  rcases List.mem_map.mp hm with ⟨kv0, _, heq⟩
  cases heq
  simp at ht

theorem fgOK_processWindow (env : PassEnv) (reg : Registry) (h : HWND)
    (hfg : fgOK env reg) : fgOK env (processWindow env reg h) := by
  by_cases h1 : IsAltTabWindow env.win32 h = true
  · by_cases h2 : env.captionOk h = true
    · cases hpng : env.hiconToPng (GetWindowIcon (env.iconEnv h) (env.exePath h)).icon with
      | none => simpa only [processWindow, h1, h2, if_true, hpng] using hfg
      | some png =>
        simp only [processWindow, h1, h2, if_true, hpng]
        cases hl : reg.lookup h with
        | some window =>
          intro kv hm ht
          rcases List.mem_map.mp hm with ⟨kv0, hkv0, heq⟩
          by_cases hb : (kv0.1 == h) = true
          · have hk : kv0.1 = h := eq_of_beq hb
            rw [hb] at heq
            simp only [if_true] at heq
            cases heq
            simp [hk]
          · have hb' : (kv0.1 == h) = false := by simpa using hb
            rw [hb'] at heq
            simp only [Bool.false_eq_true, if_false] at heq
            subst heq
            exact hfg kv0 hkv0 ht
        | none =>
          intro kv hm ht
          rcases List.mem_append.mp hm with hin | hnew
          · exact hfg kv hin ht
          · simp only [List.mem_singleton] at hnew
            subst hnew
            rfl
    · have h2' : env.captionOk h = false := by simpa using h2
      simpa only [processWindow, h1, h2', Bool.false_eq_true, if_true, if_false] using hfg
  · have h1' : IsAltTabWindow env.win32 h = false := by simpa using h1
    simpa only [processWindow, h1', Bool.false_eq_true, if_false] using hfg

theorem fgOK_foldl (env : PassEnv) :
    ∀ (items : List (Option HWND)) (reg : Registry), fgOK env reg →
      fgOK env (items.foldl (enumStep env) reg) := by
  intro items
  induction items with
  | nil => intro reg hfg; exact hfg
  | cons item rest ih =>
    intro reg hfg
    simp only [List.foldl_cons]
    apply ih
    cases item with
    | none => exact hfg
    | some h => exact fgOK_processWindow env reg h hfg

/-! ## Concrete environments used by counterexamples and witnesses -/

/-- An icon environment in which every strategy fails, so the stock icon
(handle 42) is returned. -/
def iconEnvStock : IconEnv where
  wmGetIcon := fun _ => 0
  classIconLarge := 0
  classIconSmall := 0
  utf16Ok := false
  extractNumIcons := 0
  extractLargeIcon := 0
  stockIcon := 42

/-- A pass in which window 7 is enumerated and classified eligible, but its
caption query fails, so it is never stored. -/
def envCapFail : PassEnv where
  foreground := 0
  enumeration := [some 7]
  win32 := envDwmFail
  captionOk := fun _ => false
  caption := fun _ => ""
  exePath := fun _ => ""
  iconEnv := fun _ => iconEnvStock
  hiconToPng := fun _ => some ""

/-- A pass in which windows 7 and 8 are enumerated (with one error item in
between) and both are fully stored; 7 is the foreground window. -/
def envStock : PassEnv where
  foreground := 7
  enumeration := [some 7, none, some 8]
  win32 := envDwmFail
  captionOk := fun _ => true
  caption := fun _ => "w"
  exePath := fun _ => ""
  iconEnv := fun _ => iconEnvStock
  hiconToPng := fun _ => some "png"

/-- A pass whose enumeration yields only an error item. -/
def envErr : PassEnv where
  foreground := 0
  enumeration := [none]
  win32 := envDwmFail
  captionOk := fun _ => true
  caption := fun _ => ""
  exePath := fun _ => ""
  iconEnv := fun _ => iconEnvStock
  hiconToPng := fun _ => some ""

/-- A registry holding one record, window 5, from an earlier pass. -/
def wA : UserWindow where
  touched := true
  isForeground := false
  lastActive := 0
  hwnd := 5
  caption := "A"
  iconBase64 := ""
  iconSource := ""
  exePath := ""

def regA : Registry := [(5, wA)]

theorem wfNil : WFreg [] :=
  ⟨List.nodup_nil, fun kv hm => absurd hm (List.not_mem_nil kv)⟩

/-! ## Theorems for C2 -/

/-- The statement of claim C2 as written: after a completed refresh pass the
registry holds exactly the handles classified eligible during that pass. -/
def C2claimStatement : Prop :=
  ∀ (env : PassEnv) (reg : Registry), WFreg reg →
    ∀ k, k ∈ (GetAltTabWindows env reg).1.map Prod.fst ↔
      (some k ∈ env.enumeration ∧ IsAltTabWindow env.win32 k = true)

/-- Claim C2 is false as stated: window 7 is enumerated and classified
eligible, but its caption query fails, so it is skipped and pruned — the
final registry is empty although the eligible set is {7}. -/
theorem C2_counterexample : ¬ C2claimStatement := by
  intro hcl
  have h := (hcl envCapFail [] wfNil 7).mpr ⟨by decide, by decide⟩
  exact absurd h (by decide)

/-- Claim C2 amended: after every completed refresh pass the registry (and
snapshot) holds exactly the handles *stored* during that pass — those
enumerated without error, classified eligible, and whose caption query and
icon-to-PNG conversion both succeeded (`storedCond`); every record reset to
untouched and not re-stored is deleted, and no handle from an earlier pass
survives without being re-observed. -/
theorem C2_amended (env : PassEnv) (reg : Registry) (hwf : WFreg reg) :
    (∀ k, k ∈ (GetAltTabWindows env reg).1.map Prod.fst ↔
      (some k ∈ env.enumeration ∧ storedCond env k = true)) ∧
    (GetAltTabWindows env reg).2.map (fun w => w.hwnd) =
      (GetAltTabWindows env reg).1.map Prod.fst := by
  have hwf1 := WFreg_resetTouched reg hwf
  have hwf2 : WFreg (sweepEnum env (resetTouched reg)) :=
    WFreg_foldl env env.enumeration (resetTouched reg) hwf1
  constructor
  · intro k
    simp only [GetAltTabWindows]
    constructor
    · intro hk
      rcases List.mem_map.mp hk with ⟨kv, hkv, hfst⟩
      have hkvreg2 : kv ∈ sweepEnum env (resetTouched reg) :=
        (List.mem_filter.mp hkv).1
      have htch : kv.2.touched = true := by
        simpa using (List.mem_filter.mp hkv).2
      have hlk : (sweepEnum env (resetTouched reg)).lookup kv.1 = some kv.2 := by
        rw [← mem_iff_lookup_of_nodup _ hwf2.1]
        exact hkvreg2
      have htof : touchedOf (sweepEnum env (resetTouched reg)) kv.1 = true := by
        unfold touchedOf
        rw [hlk]
        exact htch
      have hdis := (touchedOf_foldl env env.enumeration (resetTouched reg) kv.1).mp htof
      rcases hdis with habs | hgood
      · rw [touchedOf_resetTouched] at habs
        cases habs
      · rw [← hfst]
        exact hgood
    · rintro ⟨henum, hsc⟩
      have htof : touchedOf (sweepEnum env (resetTouched reg)) k = true :=
        (touchedOf_foldl env env.enumeration (resetTouched reg) k).mpr
          (Or.inr ⟨henum, hsc⟩)
      unfold touchedOf at htof
      cases hlk : (sweepEnum env (resetTouched reg)).lookup k with
      | none =>
        rw [hlk] at htof
        cases htof
      | some w =>
        rw [hlk] at htof
        have hmem : (k, w) ∈ sweepEnum env (resetTouched reg) := lookup_mem hlk
        have hfil : (k, w) ∈ (sweepEnum env (resetTouched reg)).filter
            (fun kv => kv.2.touched) :=
          List.mem_filter.mpr ⟨hmem, by simpa using htof⟩
        exact List.mem_map.mpr ⟨(k, w), hfil, rfl⟩
  · have hsub : ∀ kv ∈ (sweepEnum env (resetTouched reg)).filter
        (fun kv => kv.2.touched), kv.2.hwnd = kv.1 :=
      fun kv hkv => hwf2.2 kv (List.mem_filter.mp hkv).1
    simp only [GetAltTabWindows, List.map_map]
    exact List.map_congr_left fun kv hkv => hsub kv hkv

/-- Closed witness for `C2_amended`. -/
theorem C2_amended_witness :
    WFreg ([] : Registry) ∧
      (7 ∈ (GetAltTabWindows envStock []).1.map Prod.fst ↔
        some 7 ∈ envStock.enumeration ∧ storedCond envStock 7 = true) :=
  ⟨wfNil, (C2_amended envStock [] wfNil).1 7⟩

/-! ## Theorems for C4 -/

/-- The statement of claim C4 as written: an enumeration failure abandons the
pass with the previous registry state retained unchanged. -/
def C4claimStatement : Prop :=
  ∀ (env : PassEnv) (reg : Registry), none ∈ env.enumeration →
    (GetAltTabWindows env reg).1 = reg

/-- Claim C4 is false on the code: an enumeration error item is logged and
skipped, the pass carries on, and the end-of-pass prune still runs — with an
error-only enumeration the previously stored window 5 is deleted instead of
retained. -/
theorem C4_counterexample : ¬ C4claimStatement := by
  intro hcl
  have h := hcl envErr regA (by decide)
  exact absurd h (by decide)

theorem filterMap_id_map_some (xs : List HWND) : (xs.map some).filterMap id = xs := by
  induction xs with
  | nil => rfl
  | cons x t ih => simp

theorem sweep_foldl_skips_errors (env : PassEnv) :
    ∀ (items : List (Option HWND)) (reg : Registry),
      items.foldl (enumStep env) reg =
        (items.filterMap id).foldl (fun r h => processWindow env r h) reg := by
  intro items
  induction items with
  | nil => intro reg; rfl
  | cons item rest ih =>
    intro reg
    cases item with
    | none => exact ih reg
    | some h => exact ih (processWindow env reg h)

theorem processWindow_enumeration_irrel (env : PassEnv) (e : List (Option HWND)) :
    processWindow { env with enumeration := e } = processWindow env := rfl

theorem filter_touched_resetTouched (reg : Registry) :
    (resetTouched reg).filter (fun kv => kv.2.touched) = [] := by
  induction reg with
  | nil => rfl
  | cons kv rest ih => simpa [resetTouched, List.filter_cons] using ih

/-- Claim C4 amended: the refresh pass ignores error items of the enumeration
stream (they are logged and skipped, so the pass computes exactly what it
would compute from the successful items alone); the pass is *not* abandoned —
the end-of-sweep prune still runs, so when the enumeration yields no
successful item every record is deleted and the snapshot is empty, rather
than the previous registry state being retained.  (In this channel-based
variant the process keeps running; the older `EnumDesktopWindows` variant
instead terminates via `log.Fatalf`.) -/
theorem C4_amended (env : PassEnv) (reg : Registry) :
    GetAltTabWindows env reg =
      GetAltTabWindows
        { env with enumeration := (env.enumeration.filterMap id).map some } reg ∧
    (env.enumeration.filterMap id = [] →
      (GetAltTabWindows env reg).1 = [] ∧ (GetAltTabWindows env reg).2 = []) := by
  constructor
  · simp only [GetAltTabWindows, sweepEnum, sweep_foldl_skips_errors,
      processWindow_enumeration_irrel, filterMap_id_map_some]
  · intro hnil
    have h1 : (GetAltTabWindows env reg).1 = [] := by
      simp only [GetAltTabWindows, sweepEnum, sweep_foldl_skips_errors, hnil,
        List.foldl_nil, filter_touched_resetTouched]
    have h2 : (GetAltTabWindows env reg).2 =
        (GetAltTabWindows env reg).1.map (fun kv => kv.2) := rfl
    refine ⟨h1, ?_⟩
    rw [h2, h1]
    rfl

/-- Closed witness for `C4_amended`. -/
theorem C4_amended_witness :
    envErr.enumeration.filterMap id = [] ∧ (GetAltTabWindows envErr regA).1 = [] :=
  ⟨rfl, ((C4_amended envErr regA).2 rfl).1⟩

/-! ## Theorems for C7 -/

theorem length_le_one_of_nodup_of_all_eq {α : Type} {l : List α} {c : α}
    (hnd : l.Nodup) (hall : ∀ x ∈ l, x = c) : l.length ≤ 1 := by
  match l, hnd, hall with
  | [], _, _ => simp
  | [a], _, _ => simp
  | a :: b :: t, hnd, hall =>
    have ha : a = c := hall a (by simp)
    have hb : b = c := hall b (by simp)
    subst ha
    rw [List.nodup_cons] at hnd
    exact absurd (by simp [hb] : a ∈ b :: t) hnd.1

/-- Claim C7: in every snapshot produced by a refresh pass from a well-formed
registry, at most one record has its foreground flag set — the flag is the
equality of the record's handle with the single foreground handle captured
at the start of the pass, and keys are unique. -/
theorem C7_at_most_one_foreground (env : PassEnv) (reg : Registry)
    (hwf : WFreg reg) :
    ((GetAltTabWindows env reg).2.filter (fun w => w.isForeground)).length ≤ 1 := by
  have hwf1 := WFreg_resetTouched reg hwf
  have hwf2 : WFreg (sweepEnum env (resetTouched reg)) :=
    WFreg_foldl env env.enumeration (resetTouched reg) hwf1
  have hfg2 : fgOK env (sweepEnum env (resetTouched reg)) :=
    fgOK_foldl env env.enumeration (resetTouched reg) (fgOK_resetTouched env reg)
  have hmaps : (GetAltTabWindows env reg).2.filter (fun w => w.isForeground) =
      (((sweepEnum env (resetTouched reg)).filter fun kv => kv.2.touched).filter
        fun kv => kv.2.isForeground).map (fun kv => kv.2) := by
    simp only [GetAltTabWindows]
    rw [List.filter_map]
    rfl
  rw [hmaps, List.length_map]
  have hsubl : List.Sublist
      (((sweepEnum env (resetTouched reg)).filter fun kv => kv.2.touched).filter
        fun kv => kv.2.isForeground)
      (sweepEnum env (resetTouched reg)) :=
    (List.filter_sublist _).trans (List.filter_sublist _)
  have hnd : ((((sweepEnum env (resetTouched reg)).filter fun kv => kv.2.touched).filter
      fun kv => kv.2.isForeground).map Prod.fst).Nodup :=
    (hsubl.map Prod.fst).nodup hwf2.1
  have hall : ∀ x ∈ (((sweepEnum env (resetTouched reg)).filter
      fun kv => kv.2.touched).filter fun kv => kv.2.isForeground).map Prod.fst,
      x = env.foreground := by
    intro x hx
    rcases List.mem_map.mp hx with ⟨kv, hkv, rfl⟩
    have h1 := List.mem_filter.mp hkv
    have h2 := List.mem_filter.mp h1.1
    have hfg := hfg2 kv h2.1 (by simpa using h2.2)
    have hisfg : kv.2.isForeground = true := by simpa using h1.2
    rw [hisfg] at hfg
    have : env.foreground = kv.1 := by simpa using hfg.symm
    exact this.symm
  have hlen := length_le_one_of_nodup_of_all_eq hnd hall
  simpa using hlen

/-- Closed witness for `C7_at_most_one_foreground`. -/
theorem C7_witness :
    WFreg ([] : Registry) ∧
      ((GetAltTabWindows envStock []).2.filter (fun w => w.isForeground)).length ≤ 1 :=
  ⟨wfNil, C7_at_most_one_foreground envStock [] wfNil⟩

/-! ## Theorems for C9 -/

/-- The statement of claim C9 as written: on OS-foreground failure the
registry is left unchanged and nothing is published; on success the entry's
timestamp is set (a no-op if absent) *and* an immediate refresh-and-publish
is triggered. -/
def C9claimStatement : Prop :=
  ∀ (env : PassEnv) (now : Int) (hwnd : HWND) (reg : Registry),
    activateWindowHandler env false now hwnd reg = (reg, []) ∧
    (activateWindowHandler env true now hwnd reg).2.length = 1

/-- Claim C9 is false as stated: a successful activation of handle 99, which
is absent from the registry, publishes nothing — the refresh-and-publish is
inside the `if ok` branch. -/
theorem C9_counterexample : ¬ C9claimStatement := by
  intro hcl
  have h := (hcl envStock 0 99 []).2
  exact absurd h (by decide)

/-- Claim C9 amended: on OS-foreground failure the registry is left unchanged
and nothing is published; on success with the handle present, the entry's
last-activated timestamp is set and exactly one immediate refresh-and-publish
of the timestamp-updated registry is triggered; on success with the handle
absent, the registry is unchanged and *no* refresh is published. -/
theorem C9_amended (env : PassEnv) (now : Int) (hwnd : HWND) (reg : Registry) :
    activateWindowHandler env false now hwnd reg = (reg, []) ∧
    (reg.lookup hwnd = none → activateWindowHandler env true now hwnd reg = (reg, [])) ∧
    (∀ w, reg.lookup hwnd = some w →
      ∃ reg2 : Registry, reg2.lookup hwnd = some { w with lastActive := now } ∧
        activateWindowHandler env true now hwnd reg =
          ((GetAltTabWindows env reg2).1, [(GetAltTabWindows env reg2).2])) := by
  refine ⟨rfl, ?_, ?_⟩
  · intro hl
    simp [activateWindowHandler, hl]
  · intro w hl
    refine ⟨storeExisting reg hwnd { w with lastActive := now }, ?_, ?_⟩
    · rw [lookup_storeExisting]
      simp [hl]
    · simp [activateWindowHandler, hl]

/-- Closed witness for `C9_amended`. -/
theorem C9_amended_witness :
    List.lookup 99 ([] : Registry) = none ∧
      activateWindowHandler envStock true 0 99 [] = ([], []) :=
  ⟨rfl, (C9_amended envStock 0 99 []).2.1 rfl⟩

/-! ## Ordered-registry end-of-sweep prune of the older variant
(src/unnamed/part_002 lines 560-585, the `windowsOrder` loop).

Go's `range windowsOrder` iterates over the slice header captured at loop
entry: the iteration length is fixed then, and the header shares its backing
array with the slice that `slices.Delete` keeps mutating, so the loop's
element reads observe the shifted contents; `slices.Delete` (Go 1.22
semantics) also zeroes the vacated tail slot.  The registry is reduced to
the per-handle `touched` flag, the only field the prune inspects. -/

abbrev TouchReg := List (HWND × Bool)

/-- `slices.Delete(windowsOrder, j, j+1)` acting on the backing array `arr`
whose first `m` slots form the current `windowsOrder`: slots `j..m-2` take
the old values of slots `j+1..m-1`, slot `m-1` is zeroed, and slots from `m`
on are unchanged. -/
def sliceDelete (arr : List HWND) (m j : Nat) : List HWND :=
  ((arr.take m).eraseIdx j ++ [0]) ++ arr.drop m

structure PruneState where
  arr : List HWND
  m : Nat
  reg : TouchReg
  offset : Nat
deriving DecidableEq, Repr

/-- One iteration of `for i, hwnd := range windowsOrder`: read `hwnd` from
slot `i` of the (shared, mutated) backing array, shift the index left by
`offset`, and when the handle is absent from the map or still untouched,
delete it from `windowsOrder` (and, when present, from the map). -/
def pruneStep (st : PruneState) (i : Nat) : PruneState :=
  let hwnd := st.arr.getD i 0
  let j := i - st.offset
  match st.reg.lookup hwnd with
  | some true => st
  | some false =>
    { arr := sliceDelete st.arr st.m j, m := st.m - 1,
      reg := st.reg.filter (fun kv => !(kv.1 == hwnd)), offset := st.offset + 1 }
  | none =>
    { arr := sliceDelete st.arr st.m j, m := st.m - 1,
      reg := st.reg, offset := st.offset + 1 }

/-- The end-of-sweep prune loop, iterated over the indices of the original
slice header, returning the final `windowsOrder` and registry. -/
def endSweepOrdered (reg : TouchReg) (order : List HWND) : List HWND × TouchReg :=
  let final := (List.range order.length).foldl pruneStep
    { arr := order, m := order.length, reg := reg, offset := 0 }
  (final.arr.take final.m, final.reg)

/-- The snapshot loop that follows the prune: walk `windowsOrder` and emit
every handle still present in the registry. -/
def snapshotOrdered (reg : TouchReg) (order : List HWND) : List HWND :=
  let res := endSweepOrdered reg order
  res.1.filter (fun h => (res.2.lookup h).isSome)

/-- `EndSweep` as the spec words it: remove every record still untouched,
and remove its handle from the ordered list, preserving the relative order
of the survivors. -/
def specEndSweepOrder (reg : TouchReg) (order : List HWND) : List HWND :=
  order.filter fun h =>
    match reg.lookup h with
    | some true => true
    | _ => false

/-- Claim C1 describes the intended `EndSweep`, but the code's prune loop
diverges from it.  First conjunct — the claim's own scenario: order
[A,B,C] = [1,2,3] with only A untouched; the spec result is [B,C] = [2,3],
but the loop, reading the shifted backing array, deletes a zeroed tail slot
and produces [2].  Second conjunct — A and B untouched, C touched: the spec
result is [C] = [3], but the loop never examines B (shifted out from under
the iteration index) and produces [2]: the untouched B survives the sweep
while the touched C is dropped from the order. -/
theorem C1_prune_loop_diverges :
    (snapshotOrdered [(1, false), (2, true), (3, true)] [1, 2, 3] = [2] ∧
      specEndSweepOrder [(1, false), (2, true), (3, true)] [1, 2, 3] = [2, 3]) ∧
    (snapshotOrdered [(1, false), (2, false), (3, true)] [1, 2, 3] = [2] ∧
      specEndSweepOrder [(1, false), (2, false), (3, true)] [1, 2, 3] = [3]) := by
  decide

/-! ## SwitchSequencer (src/unnamed/part_000, `systemKeyPressed` handler) -/

/-- The "next" step of the frontend's tab handler: find the index of the
currently selected handle (-1 when none is selected or it is absent),
advance by one modulo the list length (`windows.length || 1` guards the
empty list), and read the element at the new index, falling back to element
0 when that read misses. -/
def nextSelected (ws : List HWND) (sel : Option HWND) : Option HWND :=
  let currentIndex : Int :=
    match sel with
    | none => -1
    | some s =>
      match ws.findIdx? (fun w => w == s) with
      | some i => (i : Int)
      | none => -1
  let len : Int := if ws.length == 0 then 1 else (ws.length : Int)
  let nextIndex := (currentIndex + 1) % len
  (ws.get? nextIndex.toNat).orElse (fun _ => ws.get? 0)

/-- The statement of claim C8 as written: for every nonempty list and every
starting handle, present or not, applying the Next step `length` times
returns the starting selection. -/
def C8claimStatement : Prop :=
  ∀ (ws : List HWND) (h : HWND), ws ≠ [] →
    (fun sel => nextSelected ws sel)^[ws.length] (some h) = some h

/-- Claim C8 is false as stated: starting from handle 20, absent from the
one-element list [10], a single application of Next (= length applications)
selects element 0, which is 10, not the starting handle 20. -/
theorem C8_counterexample : ¬ C8claimStatement := by
  intro hcl
  have h := hcl [10] 20 (by decide)
  rw [show ([10] : List HWND).length = 1 from rfl, Function.iterate_one] at h
  exact absurd h (by decide)

theorem get_eq_of_idx_eq (l : List HWND) {i j : Nat} (hi : i < l.length)
    (hj : j < l.length) (hij : i = j) : l.get ⟨i, hi⟩ = l.get ⟨j, hj⟩ := by
  subst hij
  rfl

theorem findIdx_of_nodup :
    ∀ (l : List HWND), l.Nodup → ∀ (i : Nat) (hi : i < l.length),
      l.findIdx? (fun w => w == l.get ⟨i, hi⟩) = some i := by
  intro l
  induction l with
  | nil => intro _ i hi; exact absurd hi (Nat.not_lt_zero i)
  | cons a t ih =>
    intro hnd i hi
    rw [List.nodup_cons] at hnd
    cases i with
    | zero => simp [List.findIdx?_cons]
    | succ n =>
      have hn : n < t.length := by simpa using hi
      have hget : (a :: t).get ⟨n + 1, hi⟩ = t.get ⟨n, hn⟩ := rfl
      rw [hget]
      have hmem : t.get ⟨n, hn⟩ ∈ t := t.get_mem _ _
      have hne : (a == t.get ⟨n, hn⟩) = false :=
        beq_eq_false_iff_ne.mpr (fun he => hnd.1 (by rw [he]; exact hmem))
      rw [List.findIdx?_cons, hne]
      simp only [Bool.false_eq_true, if_false]
      rw [List.findIdx?_succ, ih hnd.2 n hn]
      rfl

theorem nextSelected_get (ws : List HWND) (hnd : ws.Nodup) (i : Nat)
    (hi : i < ws.length) :
    nextSelected ws (some (ws.get ⟨i, hi⟩)) =
      some (ws.get ⟨(i + 1) % ws.length,
        Nat.mod_lt _ (Nat.lt_of_le_of_lt (Nat.zero_le i) hi)⟩) := by
  have hlen0 : ws.length ≠ 0 := by omega
  have hlf : (ws.length == 0) = false := by simpa using hlen0
  simp only [nextSelected, findIdx_of_nodup ws hnd i hi, hlf, Bool.false_eq_true,
    if_false]
  have h1 : ((i : Int) + 1) = (((i + 1 : Nat) : Int)) := by push_cast; ring
  have hcast : (((i : Int) + 1) % (ws.length : Int)).toNat = (i + 1) % ws.length := by
    rw [h1, ← Int.natCast_mod]
    exact Int.toNat_natCast _
  rw [hcast]
  have hlt : (i + 1) % ws.length < ws.length :=
    Nat.mod_lt _ (Nat.lt_of_le_of_lt (Nat.zero_le i) hi)
  rw [List.get?_eq_get hlt]
  rfl

theorem nextSelected_iterate (ws : List HWND) (hnd : ws.Nodup) :
    ∀ (k : Nat) (i : Nat) (hi : i < ws.length),
      (fun sel => nextSelected ws sel)^[k] (some (ws.get ⟨i, hi⟩)) =
        some (ws.get ⟨(i + k) % ws.length,
          Nat.mod_lt _ (Nat.lt_of_le_of_lt (Nat.zero_le i) hi)⟩) := by
  intro k
  induction k with
  | zero =>
    intro i hi
    simp only [Function.iterate_zero, id_eq]
    refine congrArg some (get_eq_of_idx_eq ws hi _ ?_)
    rw [Nat.add_zero, Nat.mod_eq_of_lt hi]
  | succ n ihk =>
    intro i hi
    rw [Function.iterate_succ_apply]
    have hlt1 : (i + 1) % ws.length < ws.length :=
      Nat.mod_lt _ (Nat.lt_of_le_of_lt (Nat.zero_le i) hi)
    rw [nextSelected_get ws hnd i hi]
    rw [ihk ((i + 1) % ws.length) hlt1]
    refine congrArg some (get_eq_of_idx_eq ws _ _ ?_)
    rw [Nat.mod_add_mod]
    congr 1
    omega

/-- Claim C8 amended: full-cycle closure holds for every duplicate-free
ordered handle list and every starting handle *present in the list*:
applying the Next step `length` times returns the starting selection.  (For
a starting handle absent from the list the first step selects element 0 and
subsequent steps cycle through the list, so the absent handle is never
returned, as `C8_counterexample` shows; registry snapshots are
duplicate-free because records are keyed by handle.) -/
theorem C8_amended (ws : List HWND) (h : HWND) (hnd : ws.Nodup) (hmem : h ∈ ws) :
    (fun sel => nextSelected ws sel)^[ws.length] (some h) = some h := by
  rcases List.mem_iff_get.mp hmem with ⟨⟨i, hi⟩, rfl⟩
  rw [nextSelected_iterate ws hnd ws.length i hi]
  refine congrArg some (get_eq_of_idx_eq ws _ _ ?_)
  rw [Nat.add_mod_right]
  exact Nat.mod_eq_of_lt hi

/-- Closed witness for `C8_amended`. -/
theorem C8_amended_witness :
    ([10, 20, 30] : List HWND).Nodup ∧ (20 : HWND) ∈ ([10, 20, 30] : List HWND) ∧
      (fun sel => nextSelected [10, 20, 30] sel)^[3] (some 20) = some 20 :=
  ⟨by decide, by decide, C8_amended [10, 20, 30] 20 (by decide) (by decide)⟩

end TabSwitcher
